import Mathlib

/-!
Shallow embedding of the mtlog Zed extension
(`src/zed-extension/mtlog/src/lib.rs`): the binary resolver
(`find_mtlog_lsp`, `language_server_command`) and the
initialization-options builder (`language_server_initialization_options`),
together with proofs of the specified properties.
-/

set_option autoImplicit false

namespace Mtlog

/-- A loosely-typed JSON document, mirroring `serde_json::Value`.
Numbers are irrelevant to the code under study and are kept abstract
as integers. Object fields are an association list with unique keys
(as in `serde_json::Map`). -/
inductive Value where
  | null
  | bool (b : Bool)
  | num (n : Int)
  | str (s : String)
  | arr (elems : List Value)
  | obj (fields : List (String × Value))

/-- `serde_json::Value::get` with a string index: field lookup on an
object, `none` on every other variant. -/
def Value.get (v : Value) (key : String) : Option Value :=
  match v with
  | Value.obj fields => (fields.find? (fun p => p.1 == key)).map (fun p => p.2)
  | _ => none

/-- The top-level keys of an object document (empty for non-objects). -/
def Value.keys (v : Value) : List String :=
  match v with
  | Value.obj fields => fields.map (fun p => p.1)
  | _ => []

/-- The `binary` sub-document of Zed's per-server LSP settings:
an optional explicit path to the language-server executable. -/
structure BinarySettings where
  path : Option String
  deriving DecidableEq, Repr

/-- Zed's per-worktree LSP settings document for one server
(`zed_extension_api::settings::LspSettings`): optional explicit binary,
optional `initialization_options` sub-document, optional legacy
`settings` sub-document. -/
structure LspSettings where
  binary : Option BinarySettings
  initialization_options : Option Value
  settings : Option Value

/-- Lookup in a shell-environment snapshot, mirroring
`env.into_iter().collect::<HashMap<_,_>>()` followed by `get`:
when a key occurs more than once the last occurrence wins, as in
`HashMap::from_iter`. -/
def envGet (env : List (String × String)) (key : String) : Option String :=
  (env.reverse.find? (fun p => p.1 == key)).map (fun p => p.2)

/-- The host-provided worktree context: per-server LSP settings fetch
(which can fail on a malformed settings file), PATH-style `which`
lookup, and the shell-environment snapshot. -/
structure Worktree where
  lspSettings : String → Except String LspSettings
  which : String → Option String
  shell_env : List (String × String)

/-- Extension state (`struct MtlogAnalyzerExtension`): the one cached
binary path. -/
structure MtlogAnalyzerExtension where
  cached_binary_path : Option String
  deriving DecidableEq, Repr

/-- `Extension::new`: fresh state with an empty cache. -/
def MtlogAnalyzerExtension.new : MtlogAnalyzerExtension :=
  { cached_binary_path := none }

/-- The process-launch descriptor returned to the host
(`zed_extension_api::Command`). -/
structure Command where
  command : String
  args : List String
  env : List (String × String)
  deriving DecidableEq, Repr

/-- `find_mtlog_lsp`: locate the binary by strict priority —
explicit settings path, `which("mtlog-lsp")`, `$GOBIN/mtlog-lsp`,
`$GOPATH/bin/mtlog-lsp`, `$HOME/go/bin/mtlog-lsp`, else `none`.
A failed settings fetch (`if let Ok(..)`) falls through silently. -/
def find_mtlog_lsp (w : Worktree) : Option String :=
  match
    (match w.lspSettings "mtlog-analyzer" with
     | Except.ok lsp_settings => lsp_settings.binary.bind (fun b => b.path)
     | Except.error _ => none) with
  | some path => some path
  | none =>
    match w.which "mtlog-lsp" with
    | some path => some path
    | none =>
      match envGet w.shell_env "GOBIN" with
      | some gobin => some (gobin ++ "/mtlog-lsp")
      | none =>
        match envGet w.shell_env "GOPATH" with
        | some gopath => some (gopath ++ "/bin/mtlog-lsp")
        | none =>
          match envGet w.shell_env "HOME" with
          | some home => some (home ++ "/go/bin/mtlog-lsp")
          | none => none

/-- The exact error string produced when every resolution source
misses (the `ok_or_else` closure in `language_server_command`). -/
def notFoundMessage : String :=
  "mtlog-lsp not found in PATH or standard Go locations.\nSearched: PATH, $GOBIN, $GOPATH/bin, ~/go/bin\nPlease install with: go install github.com/willibrandon/mtlog/cmd/mtlog-lsp@latest"

/-- `Extension::language_server_command` as an explicit state
transformer: use the cached path if set, otherwise run
`find_mtlog_lsp` and cache the result on success; wrap the path in a
`Command` with empty `args` and empty `env`. -/
def language_server_command (ext : MtlogAnalyzerExtension) (w : Worktree) :
    MtlogAnalyzerExtension × Except String Command :=
  match ext.cached_binary_path with
  | some path =>
    (ext, Except.ok { command := path, args := [], env := [] })
  | none =>
    match find_mtlog_lsp w with
    | some path =>
      ({ cached_binary_path := some path },
        Except.ok { command := path, args := [], env := [] })
    | none => (ext, Except.error notFoundMessage)

/-- `Extension::language_server_initialization_options` as an explicit
state transformer: fetch the settings (propagating fetch failure via
`?`), pass through `initialization_options` when present, otherwise
build the flat six-key document from the legacy `settings`
sub-document (defaulted to `{}`). -/
def language_server_initialization_options (ext : MtlogAnalyzerExtension)
    (language_server_id : String) (w : Worktree) :
    MtlogAnalyzerExtension × Except String (Option Value) :=
  match w.lspSettings language_server_id with
  | Except.error e => (ext, Except.error e)
  | Except.ok lsp_settings =>
    match lsp_settings.initialization_options with
    | some init_options => (ext, Except.ok (some init_options))
    | none =>
      let settings := lsp_settings.settings.getD (Value.obj [])
      (ext, Except.ok (some (Value.obj [
        ("suppressedCodes", (settings.get "suppressedCodes").getD (Value.arr [])),
        ("severityOverrides", (settings.get "severityOverrides").getD (Value.obj [])),
        ("disableAll", (settings.get "disableAll").getD (Value.bool false)),
        ("commonKeys", (settings.get "commonKeys").getD (Value.arr [])),
        ("strictMode", (settings.get "strictMode").getD (Value.bool false)),
        ("ignoreDynamicTemplates", (settings.get "ignoreDynamicTemplates").getD (Value.bool false))])))

/-! ### Spec-side definitions (written from the spec's words, for refinement claims) -/

/-- Candidate (1) of the spec's priority list: the explicit binary path
carried by the host LSP settings, when the fetch succeeds and the path
is present. -/
def settingsExplicitPath (w : Worktree) : Option String :=
  match w.lspSettings "mtlog-analyzer" with
  | Except.ok s => s.binary.bind (fun b => b.path)
  | Except.error _ => none

/-- The spec's ordered candidate list for binary resolution:
explicit settings path, PATH lookup of the canonical name,
`<GOBIN>/mtlog-lsp`, `<GOPATH>/bin/mtlog-lsp`, `<HOME>/go/bin/mtlog-lsp`. -/
def resolveCandidates (w : Worktree) : List (Option String) :=
  [settingsExplicitPath w,
   w.which "mtlog-lsp",
   (envGet w.shell_env "GOBIN").map (fun v => v ++ "/mtlog-lsp"),
   (envGet w.shell_env "GOPATH").map (fun v => v ++ "/bin/mtlog-lsp"),
   (envGet w.shell_env "HOME").map (fun v => v ++ "/go/bin/mtlog-lsp")]

/-- Resolution as the spec words it: strict priority order, first hit
wins, no combination of sources. -/
def resolveSpec (w : Worktree) : Option String :=
  (resolveCandidates w).findSome? id

/-- Whether `pat` occurs as a contiguous run inside the character list. -/
def containsAux (pat : List Char) : List Char → Bool
  | [] => pat.isEmpty
  | c :: rest => pat.isPrefixOf (c :: rest) || containsAux pat rest

/-- Whether `pat` occurs as a contiguous substring of `s`. -/
def strContainsSub (s pat : String) : Bool :=
  containsAux pat.data s.data

/-- `find_mtlog_lsp` agrees with the spec-side priority search on every
worktree context. -/
theorem find_mtlog_lsp_eq_resolveSpec (w : Worktree) :
    find_mtlog_lsp w = resolveSpec w := by
  unfold find_mtlog_lsp resolveSpec resolveCandidates settingsExplicitPath
  cases hs : w.lspSettings "mtlog-analyzer" with
  | error e =>
    cases hw : w.which "mtlog-lsp" <;>
      cases h1 : envGet w.shell_env "GOBIN" <;>
        cases h2 : envGet w.shell_env "GOPATH" <;>
          cases h3 : envGet w.shell_env "HOME" <;>
            simp [List.findSome?, hw, h1, h2, h3]
  | ok s =>
    cases hb : s.binary.bind (fun b => b.path) <;>
      cases hw : w.which "mtlog-lsp" <;>
        cases h1 : envGet w.shell_env "GOBIN" <;>
          cases h2 : envGet w.shell_env "GOPATH" <;>
            cases h3 : envGet w.shell_env "HOME" <;>
              simp [List.findSome?, hb, hw, h1, h2, h3]

/-- Claim C1: `find_mtlog_lsp` returns the first candidate of the
spec's strict priority order (explicit settings path, PATH lookup,
`GOBIN`, `GOPATH`, `HOME`), with no combination of sources; in
particular when the first two sources miss and both `GOBIN` and
`GOPATH` are set, `GOBIN` wins. -/
theorem find_mtlog_lsp_priority_order :
    (∀ w : Worktree, find_mtlog_lsp w = resolveSpec w) ∧
    (∀ (w : Worktree) (x y : String),
      settingsExplicitPath w = none →
      w.which "mtlog-lsp" = none →
      envGet w.shell_env "GOBIN" = some x →
      envGet w.shell_env "GOPATH" = some y →
      find_mtlog_lsp w = some (x ++ "/mtlog-lsp")) := by
  refine ⟨find_mtlog_lsp_eq_resolveSpec, ?_⟩
  intro w x y hset hwhich hgobin hgopath
  rw [find_mtlog_lsp_eq_resolveSpec]
  unfold resolveSpec resolveCandidates
  simp [List.findSome?, hset, hwhich, hgobin, hgopath]

/-- A concrete worktree: settings fetch succeeds with nothing set,
PATH misses, and both `GOBIN` and `GOPATH` are in the environment. -/
def worktreeGobinGopath : Worktree :=
  { lspSettings := fun _ =>
      Except.ok { binary := none, initialization_options := none, settings := none },
    which := fun _ => none,
    shell_env := [("GOBIN", "/x"), ("GOPATH", "/y")] }

/-- Witness for claim C1 at a concrete worktree. -/
theorem find_mtlog_lsp_priority_order_witness :
    settingsExplicitPath worktreeGobinGopath = none ∧
    envGet worktreeGobinGopath.shell_env "GOBIN" = some "/x" ∧
    envGet worktreeGobinGopath.shell_env "GOPATH" = some "/y" ∧
    find_mtlog_lsp worktreeGobinGopath = some ("/x" ++ "/mtlog-lsp") :=
  ⟨rfl, by decide, by decide,
    find_mtlog_lsp_priority_order.2 worktreeGobinGopath "/x" "/y" rfl rfl
      (by decide) (by decide)⟩

/-- Claim C2: after a successful `language_server_command`, the
resolved path is stored in the cache, and every later call returns the
same cached command without re-running the search, whatever the later
worktree context would resolve to. -/
theorem language_server_command_caches (ext : MtlogAnalyzerExtension)
    (w : Worktree) (ext2 : MtlogAnalyzerExtension) (c : Command)
    (h : language_server_command ext w = (ext2, Except.ok c)) :
    ext2.cached_binary_path = some c.command ∧
    ∀ w2 : Worktree, language_server_command ext2 w2 = (ext2, Except.ok c) := by
  unfold language_server_command at h ⊢
  cases hc : ext.cached_binary_path with
  | some p =>
    simp only [hc] at h
    obtain ⟨rfl, h2⟩ := Prod.mk.injEq .. ▸ h
    obtain rfl := Except.ok.inj h2
    simp [hc]
  | none =>
    cases hf : find_mtlog_lsp w with
    | some p =>
      simp only [hc, hf] at h
      obtain ⟨rfl, h2⟩ := Prod.mk.injEq .. ▸ h
      obtain rfl := Except.ok.inj h2
      simp
    | none =>
      simp only [hc, hf] at h
      exact absurd (congrArg Prod.snd h) (by simp)

/-- A concrete worktree whose PATH lookup hits. -/
def worktreeWhichHit : Worktree :=
  { lspSettings := fun _ =>
      Except.ok { binary := none, initialization_options := none, settings := none },
    which := fun _ => some "/usr/bin/mtlog-lsp",
    shell_env := [] }

/-- A concrete worktree whose PATH lookup would resolve to a different
binary than `worktreeWhichHit`. -/
def worktreeOtherHit : Worktree :=
  { lspSettings := fun _ =>
      Except.ok { binary := none, initialization_options := none, settings := none },
    which := fun _ => some "/opt/other/mtlog-lsp",
    shell_env := [("GOBIN", "/z")] }

/-- Witness for claim C2: after resolving on `worktreeWhichHit`, a
second call on `worktreeOtherHit` (which would resolve differently)
still returns the first, cached path. -/
theorem language_server_command_caches_witness :
    language_server_command (MtlogAnalyzerExtension.mk (some "/usr/bin/mtlog-lsp"))
        worktreeOtherHit
      = (MtlogAnalyzerExtension.mk (some "/usr/bin/mtlog-lsp"),
         Except.ok (Command.mk "/usr/bin/mtlog-lsp" [] [])) :=
  (language_server_command_caches MtlogAnalyzerExtension.new worktreeWhichHit
    (MtlogAnalyzerExtension.mk (some "/usr/bin/mtlog-lsp"))
    (Command.mk "/usr/bin/mtlog-lsp" [] []) rfl).2 worktreeOtherHit

/-- Claim C3: when the explicit settings path is absent, the PATH
lookup misses and none of `GOBIN`, `GOPATH`, `HOME` is in the
environment, resolution fails with the not-found error — it does not
fall back to a fixed system path — and the message names every source
searched and the exact remediation install command, and mentions no
`/usr/local/bin` fallback. -/
theorem resolve_not_found (ext : MtlogAnalyzerExtension) (w : Worktree)
    (hcache : ext.cached_binary_path = none)
    (hset : settingsExplicitPath w = none)
    (hwhich : w.which "mtlog-lsp" = none)
    (hgobin : envGet w.shell_env "GOBIN" = none)
    (hgopath : envGet w.shell_env "GOPATH" = none)
    (hhome : envGet w.shell_env "HOME" = none) :
    language_server_command ext w = (ext, Except.error notFoundMessage) ∧
    strContainsSub notFoundMessage "PATH" = true ∧
    strContainsSub notFoundMessage "GOBIN" = true ∧
    strContainsSub notFoundMessage "GOPATH" = true ∧
    strContainsSub notFoundMessage "~/go/bin" = true ∧
    strContainsSub notFoundMessage
      "go install github.com/willibrandon/mtlog/cmd/mtlog-lsp@latest" = true ∧
    strContainsSub notFoundMessage "/usr/local/bin" = false := by
  have hfind : find_mtlog_lsp w = none := by
    rw [find_mtlog_lsp_eq_resolveSpec]
    unfold resolveSpec resolveCandidates
    simp [List.findSome?, hset, hwhich, hgobin, hgopath, hhome]
  refine ⟨?_, by decide, by decide, by decide, by decide, by decide, by decide⟩
  unfold language_server_command
  simp [hcache, hfind]

/-- A concrete worktree with no explicit settings path, no PATH hit
and an environment with none of the relevant variables. -/
def worktreeBare : Worktree :=
  { lspSettings := fun _ =>
      Except.ok { binary := none, initialization_options := none, settings := none },
    which := fun _ => none,
    shell_env := [("SHELL", "/bin/zsh")] }

/-- Witness for claim C3 at a concrete bare worktree. -/
theorem resolve_not_found_witness :
    language_server_command MtlogAnalyzerExtension.new worktreeBare
      = (MtlogAnalyzerExtension.new, Except.error notFoundMessage) :=
  (resolve_not_found MtlogAnalyzerExtension.new worktreeBare rfl rfl rfl
    (by decide) (by decide) (by decide)).1

/-- Claim C7: a failed resolution leaves the cache unchanged (still
unset), a subsequent call re-runs the full search from scratch, and the
cache is written only on a successful resolution. -/
theorem cache_unchanged_on_failure :
    (∀ (ext : MtlogAnalyzerExtension) (w : Worktree),
      ext.cached_binary_path = none → find_mtlog_lsp w = none →
      language_server_command ext w = (ext, Except.error notFoundMessage) ∧
      ∀ (w2 : Worktree) (p : String), find_mtlog_lsp w2 = some p →
        language_server_command (language_server_command ext w).1 w2 =
          ({ cached_binary_path := some p },
            Except.ok { command := p, args := [], env := [] })) ∧
    (∀ (ext : MtlogAnalyzerExtension) (w : Worktree),
      (language_server_command ext w).1 ≠ ext →
      ∃ c : Command, (language_server_command ext w).2 = Except.ok c) := by
  constructor
  · intro ext w hcache hfind
    have hfail : language_server_command ext w = (ext, Except.error notFoundMessage) := by
      unfold language_server_command
      simp [hcache, hfind]
    refine ⟨hfail, ?_⟩
    intro w2 p hp
    rw [hfail]
    unfold language_server_command
    simp [hcache, hp]
  · intro ext w hne
    unfold language_server_command at hne ⊢
    cases hc : ext.cached_binary_path with
    | some p => simp [hc] at hne
    | none =>
      cases hf : find_mtlog_lsp w with
      | some p =>
        exact ⟨{ command := p, args := [], env := [] }, by simp [hc, hf]⟩
      | none => simp [hc, hf] at hne

/-- A concrete worktree resolving through `GOBIN` after a failure. -/
def worktreeGobinOnly : Worktree :=
  { lspSettings := fun _ =>
      Except.ok { binary := none, initialization_options := none, settings := none },
    which := fun _ => none,
    shell_env := [("GOBIN", "/gobin")] }

/-- Witness for claim C7: after a failed resolution on a bare worktree,
a later call on a worktree with `GOBIN` set re-runs the search and
succeeds. -/
theorem cache_unchanged_on_failure_witness :
    language_server_command
        (language_server_command MtlogAnalyzerExtension.new worktreeBare).1
        worktreeGobinOnly
      = ({ cached_binary_path := some ("/gobin" ++ "/mtlog-lsp") },
          Except.ok { command := "/gobin" ++ "/mtlog-lsp", args := [], env := [] }) :=
  (cache_unchanged_on_failure.1 MtlogAnalyzerExtension.new worktreeBare rfl
    (by decide)).2 worktreeGobinOnly ("/gobin" ++ "/mtlog-lsp") (by decide)

/-- Claim C8: every successful `language_server_command` returns a
launch descriptor whose command is the resolved path (the cached path
if set, else the fresh search result), with empty argument list and
empty environment. -/
theorem command_descriptor_shape (ext : MtlogAnalyzerExtension)
    (w : Worktree) (ext2 : MtlogAnalyzerExtension) (c : Command)
    (h : language_server_command ext w = (ext2, Except.ok c)) :
    c.args = [] ∧ c.env = [] ∧
    some c.command =
      (match ext.cached_binary_path with
       | some p => some p
       | none => find_mtlog_lsp w) := by
  unfold language_server_command at h
  cases hc : ext.cached_binary_path with
  | some p =>
    simp only [hc] at h
    obtain ⟨rfl, h2⟩ := Prod.mk.injEq .. ▸ h
    obtain rfl := Except.ok.inj h2
    simp
  | none =>
    cases hf : find_mtlog_lsp w with
    | some p =>
      simp only [hc, hf] at h
      obtain ⟨rfl, h2⟩ := Prod.mk.injEq .. ▸ h
      obtain rfl := Except.ok.inj h2
      simp [hf]
    | none =>
      simp only [hc, hf] at h
      exact absurd (congrArg Prod.snd h) (by simp)

/-- Witness for claim C8 at a concrete resolving worktree. -/
theorem command_descriptor_shape_witness :
    (Command.mk "/usr/bin/mtlog-lsp" [] []).args = [] ∧
    (Command.mk "/usr/bin/mtlog-lsp" [] []).env = [] ∧
    some (Command.mk "/usr/bin/mtlog-lsp" [] []).command =
      (match MtlogAnalyzerExtension.new.cached_binary_path with
       | some p => some p
       | none => find_mtlog_lsp worktreeWhichHit) :=
  command_descriptor_shape MtlogAnalyzerExtension.new worktreeWhichHit
    (MtlogAnalyzerExtension.mk (some "/usr/bin/mtlog-lsp"))
    (Command.mk "/usr/bin/mtlog-lsp" [] []) rfl

/-- Steps 2–5 of the search, as run when the settings source yields
nothing: PATH lookup, then `GOBIN`, `GOPATH`, `HOME`. -/
def searchBeyondSettings (w : Worktree) : Option String :=
  match w.which "mtlog-lsp" with
  | some path => some path
  | none =>
    match envGet w.shell_env "GOBIN" with
    | some gobin => some (gobin ++ "/mtlog-lsp")
    | none =>
      match envGet w.shell_env "GOPATH" with
      | some gopath => some (gopath ++ "/bin/mtlog-lsp")
      | none =>
        match envGet w.shell_env "HOME" with
        | some home => some (home ++ "/go/bin/mtlog-lsp")
        | none => none

/-- Claim C9: a failed per-worktree settings fetch is swallowed by
`find_mtlog_lsp`, which continues with the PATH lookup and the
remaining sources; in particular a malformed settings file does not by
itself make resolution fail when a later source hits. -/
theorem settings_fetch_failure_ignored (w : Worktree) (e : String)
    (hf : w.lspSettings "mtlog-analyzer" = Except.error e) :
    find_mtlog_lsp w = searchBeyondSettings w ∧
    (∀ (ext : MtlogAnalyzerExtension) (p : String),
      ext.cached_binary_path = none → w.which "mtlog-lsp" = some p →
      language_server_command ext w =
        ({ cached_binary_path := some p },
          Except.ok { command := p, args := [], env := [] })) := by
  have hsearch : find_mtlog_lsp w = searchBeyondSettings w := by
    unfold find_mtlog_lsp searchBeyondSettings
    rw [hf]
  refine ⟨hsearch, ?_⟩
  intro ext p hcache hwhich
  have hfind : find_mtlog_lsp w = some p := by
    rw [hsearch]
    unfold searchBeyondSettings
    rw [hwhich]
  unfold language_server_command
  simp [hcache, hfind]

/-- A concrete worktree whose settings fetch fails but whose PATH
lookup hits. -/
def worktreeBadSettings : Worktree :=
  { lspSettings := fun _ => Except.error "malformed settings",
    which := fun _ => some "/usr/bin/mtlog-lsp",
    shell_env := [] }

/-- Witness for claim C9 at a concrete worktree with a failing
settings fetch. -/
theorem settings_fetch_failure_ignored_witness :
    find_mtlog_lsp worktreeBadSettings = searchBeyondSettings worktreeBadSettings ∧
    language_server_command MtlogAnalyzerExtension.new worktreeBadSettings =
      ({ cached_binary_path := some "/usr/bin/mtlog-lsp" },
        Except.ok { command := "/usr/bin/mtlog-lsp", args := [], env := [] }) :=
  ⟨(settings_fetch_failure_ignored worktreeBadSettings "malformed settings" rfl).1,
    (settings_fetch_failure_ignored worktreeBadSettings "malformed settings" rfl).2
      MtlogAnalyzerExtension.new "/usr/bin/mtlog-lsp" rfl rfl⟩

/-- The six recognized configuration keys, in output order. -/
def recognizedKeys : List String :=
  ["suppressedCodes", "severityOverrides", "disableAll",
   "commonKeys", "strictMode", "ignoreDynamicTemplates"]

/-- The documented default for each recognized key (spec §6). -/
def defaultFor : String → Value
  | "suppressedCodes" => Value.arr []
  | "severityOverrides" => Value.obj []
  | "disableAll" => Value.bool false
  | "commonKeys" => Value.arr []
  | "strictMode" => Value.bool false
  | "ignoreDynamicTemplates" => Value.bool false
  | _ => Value.null

/-- The flat six-key document built from a legacy settings document,
as assembled by the `serde_json::json!` literal in the source. -/
def builtOptions (settings : Value) : Value :=
  Value.obj [
    ("suppressedCodes", (settings.get "suppressedCodes").getD (Value.arr [])),
    ("severityOverrides", (settings.get "severityOverrides").getD (Value.obj [])),
    ("disableAll", (settings.get "disableAll").getD (Value.bool false)),
    ("commonKeys", (settings.get "commonKeys").getD (Value.arr [])),
    ("strictMode", (settings.get "strictMode").getD (Value.bool false)),
    ("ignoreDynamicTemplates", (settings.get "ignoreDynamicTemplates").getD (Value.bool false))]

/-- A populated legacy settings document used in concrete instances. -/
def passthroughLegacy : Value := Value.obj [("strictMode", Value.bool true)]

/-- An `initialization_options` sub-document used in concrete instances. -/
def passthroughDoc : Value := Value.obj [("disableAll", Value.bool true)]

/-- Claim C4: when the settings carry an `initialization_options`
sub-document, the builder returns exactly that document, unmodified,
with no defaults applied, ignoring any populated legacy `settings`
sub-document. -/
theorem init_options_passthrough (ext : MtlogAnalyzerExtension)
    (sid : String) (w : Worktree) (s : LspSettings) (v : Value)
    (hs : w.lspSettings sid = Except.ok s)
    (hio : s.initialization_options = some v) :
    language_server_initialization_options ext sid w = (ext, Except.ok (some v)) := by
  unfold language_server_initialization_options
  simp [hs, hio]

/-- A concrete worktree whose settings carry both an
`initialization_options` sub-document and a populated legacy
`settings` sub-document. -/
def worktreePassthrough : Worktree :=
  { lspSettings := fun _ =>
      Except.ok { binary := none,
                  initialization_options := some passthroughDoc,
                  settings := some passthroughLegacy },
    which := fun _ => none,
    shell_env := [] }

/-- Witness for claim C4 at a concrete worktree. -/
theorem init_options_passthrough_witness :
    language_server_initialization_options MtlogAnalyzerExtension.new
        "mtlog-analyzer" worktreePassthrough
      = (MtlogAnalyzerExtension.new, Except.ok (some passthroughDoc)) :=
  init_options_passthrough MtlogAnalyzerExtension.new "mtlog-analyzer"
    worktreePassthrough
    (LspSettings.mk none (some passthroughDoc) (some passthroughLegacy))
    passthroughDoc rfl rfl

/-- Claim C5: with no `initialization_options` sub-document, the
builder returns a flat document with exactly the six recognized keys;
each key's value is the legacy document's value when present (an
absent legacy document acting as empty) and otherwise the documented
default; every unrecognized key is absent from the output. -/
theorem init_options_defaults (ext : MtlogAnalyzerExtension)
    (sid : String) (w : Worktree) (s : LspSettings)
    (hs : w.lspSettings sid = Except.ok s)
    (hio : s.initialization_options = none) :
    ∃ out : Value,
      (language_server_initialization_options ext sid w).2 = Except.ok (some out) ∧
      out.keys = recognizedKeys ∧
      ∀ k : String, out.get k =
        if k ∈ recognizedKeys
        then some (((s.settings.getD (Value.obj [])).get k).getD (defaultFor k))
        else none := by
  have hcall : (language_server_initialization_options ext sid w).2 =
      Except.ok (some (builtOptions (s.settings.getD (Value.obj [])))) := by
    unfold language_server_initialization_options builtOptions
    simp [hs, hio]
  refine ⟨builtOptions (s.settings.getD (Value.obj [])), hcall, by simp [builtOptions, Value.keys, recognizedKeys], ?_⟩
  intro k
  by_cases h1 : k = "suppressedCodes"
  · subst h1; simp [builtOptions, Value.get, recognizedKeys, defaultFor]
  by_cases h2 : k = "severityOverrides"
  · subst h2; simp [builtOptions, Value.get, recognizedKeys, defaultFor]
  by_cases h3 : k = "disableAll"
  · subst h3; simp [builtOptions, Value.get, recognizedKeys, defaultFor]
  by_cases h4 : k = "commonKeys"
  · subst h4; simp [builtOptions, Value.get, recognizedKeys, defaultFor]
  by_cases h5 : k = "strictMode"
  · subst h5; simp [builtOptions, Value.get, recognizedKeys, defaultFor]
  by_cases h6 : k = "ignoreDynamicTemplates"
  · subst h6; simp [builtOptions, Value.get, recognizedKeys, defaultFor]
  have hmem : k ∉ recognizedKeys := by
    simp [recognizedKeys, h1, h2, h3, h4, h5, h6]
  simp [builtOptions, Value.get, hmem, Ne.symm h1, Ne.symm h2, Ne.symm h3,
    Ne.symm h4, Ne.symm h5, Ne.symm h6]

/-- A concrete worktree with legacy settings `{"strictMode": true,
"bogusKey": 3}` and no `initialization_options`. -/
def worktreeLegacyStrict : Worktree :=
  { lspSettings := fun _ =>
      Except.ok { binary := none,
                  initialization_options := none,
                  settings := some (Value.obj
                    [("strictMode", Value.bool true), ("bogusKey", Value.num 3)]) },
    which := fun _ => none,
    shell_env := [] }

/-- Witness for claim C5: on `worktreeLegacyStrict`, the output keeps
`strictMode=true`, defaults `disableAll` to `false`, and drops the
unrecognized `bogusKey`. -/
theorem init_options_defaults_witness :
    ∃ out : Value,
      (language_server_initialization_options MtlogAnalyzerExtension.new
          "mtlog-analyzer" worktreeLegacyStrict).2 = Except.ok (some out) ∧
      out.keys = recognizedKeys ∧
      out.get "strictMode" = some (Value.bool true) ∧
      out.get "disableAll" = some (Value.bool false) ∧
      out.get "bogusKey" = none := by
  obtain ⟨out, h1, h2, h3⟩ :=
    init_options_defaults MtlogAnalyzerExtension.new "mtlog-analyzer"
      worktreeLegacyStrict
      (LspSettings.mk none none (some (Value.obj
        [("strictMode", Value.bool true), ("bogusKey", Value.num 3)])))
      rfl rfl
  refine ⟨out, h1, h2, ?_, ?_, ?_⟩
  · rw [h3 "strictMode"]
    simp [recognizedKeys, defaultFor, Value.get]
  · rw [h3 "disableAll"]
    simp [recognizedKeys, defaultFor, Value.get]
  · rw [h3 "bogusKey"]
    simp [recognizedKeys]

/-- Claim C6: the builder fails exactly when the host settings fetch
fails, propagating the host's error verbatim; whenever the fetch
succeeds, the builder succeeds. -/
theorem init_options_error_propagation (ext : MtlogAnalyzerExtension)
    (sid : String) (w : Worktree) :
    (∀ e : String,
      (language_server_initialization_options ext sid w).2 = Except.error e ↔
        w.lspSettings sid = Except.error e) ∧
    (∀ s : LspSettings, w.lspSettings sid = Except.ok s →
      ∃ v : Option Value,
        (language_server_initialization_options ext sid w).2 = Except.ok v) := by
  unfold language_server_initialization_options
  cases hs : w.lspSettings sid with
  | error e0 =>
    refine ⟨fun e => by simp, fun s hsok => by cases hsok⟩
  | ok s =>
    refine ⟨fun e => ?_, fun s2 hs2 => ?_⟩
    · cases hio : s.initialization_options <;> simp [hio]
    · refine ⟨(match s.initialization_options with
        | some io => some io
        | none => some (builtOptions (s.settings.getD (Value.obj [])))), ?_⟩
      cases hio : s.initialization_options <;> simp [hio, builtOptions]

/-- Witness for claim C6: a failing fetch propagates its error
verbatim, and a succeeding fetch yields a successful build. -/
theorem init_options_error_propagation_witness :
    (language_server_initialization_options MtlogAnalyzerExtension.new
        "mtlog-analyzer" worktreeBadSettings).2 = Except.error "malformed settings" ∧
    ∃ v : Option Value,
      (language_server_initialization_options MtlogAnalyzerExtension.new
          "mtlog-analyzer" worktreePassthrough).2 = Except.ok v :=
  ⟨((init_options_error_propagation MtlogAnalyzerExtension.new "mtlog-analyzer"
      worktreeBadSettings).1 "malformed settings").mpr rfl,
    (init_options_error_propagation MtlogAnalyzerExtension.new "mtlog-analyzer"
      worktreePassthrough).2
      (LspSettings.mk none (some passthroughDoc) (some passthroughLegacy)) rfl⟩

/-- Claim C10: the builder neither reads nor writes the cached binary
path — the state component is returned unchanged, and the result is
the same for any two prior states. -/
theorem init_options_frame (ext ext2 : MtlogAnalyzerExtension)
    (sid : String) (w : Worktree) :
    (language_server_initialization_options ext sid w).1 = ext ∧
    (language_server_initialization_options ext sid w).2 =
      (language_server_initialization_options ext2 sid w).2 := by
  unfold language_server_initialization_options
  cases hs : w.lspSettings sid with
  | error e => simp
  | ok s => cases hio : s.initialization_options <;> simp [hio]

end Mtlog
